import Mathlib

/-!
Shallow embedding of the connection registry and message router of
websocket_server.py (a FastAPI WebSocket relay hub), with proofs about its
operations.

Connections are identified by natural-number handles.  Python dictionaries
are embedded as insertion-ordered association lists (with the key-uniqueness
a Python dict has by construction expressed as a well-formedness predicate),
Python sets of connections as duplicate-free lists.  The transport layer is
abstracted by a World assigning to each connection handle its channel state
(whether client_state is CONNECTED) and whether send_text to it succeeds.
-/

namespace BossWs

/-- Python dict lookup, d.get(k). -/
def dictGet {α β : Type} [DecidableEq α] : List (α × β) → α → Option β
  | [], _ => none
  | p :: rest, k => if p.1 = k then some p.2 else dictGet rest k

/-- Python dict key membership, k in d. -/
def dictContains {α β : Type} [DecidableEq α] (d : List (α × β)) (k : α) : Bool :=
  (dictGet d k).isSome

/-- Removal of a key, as performed by Python pop on a present key. -/
def dictRemove {α β : Type} [DecidableEq α] : List (α × β) → α → List (α × β)
  | [], _ => []
  | p :: rest, k => if p.1 = k then dictRemove rest k else p :: dictRemove rest k

/-- Python d.pop(k, None): the popped value (if any) and the remaining dict. -/
def dictPop {α β : Type} [DecidableEq α] (d : List (α × β)) (k : α) :
    Option β × List (α × β) :=
  match dictGet d k with
  | some v => (some v, dictRemove d k)
  | none => (none, d)

/-- Python assignment d[k] = v: replace in place when the key exists, else append. -/
def dictSet {α β : Type} [DecidableEq α] (d : List (α × β)) (k : α) (v : β) :
    List (α × β) :=
  match dictGet d k with
  | some _ => d.map (fun p => if p.1 = k then (k, v) else p)
  | none => d ++ [(k, v)]

/-- Structural well-formedness that a Python dict has by construction:
all keys distinct. -/
def dictWF {α β : Type} (d : List (α × β)) : Prop :=
  (d.map Prod.fst).Nodup

/-- Python set.add on the embedded connection set. -/
def setAdd (l : List Nat) (x : Nat) : List Nat :=
  if x ∈ l then l else l ++ [x]

/-- The custom payload slot of the shared JSON document (an opaque JSON
object, embedded as a key-value list). -/
abbrev Payload := List (String × String)

/-- The shared document main_json_data created in ConnectionManager's
constructor; the timestamp is embedded as a natural number token. -/
@[ext]
structure MainJson where
  status : String
  users_online : Nat
  last_updated : Nat
  custom_data : Payload
deriving DecidableEq, Repr

/-- The mutable state of the ConnectionManager singleton. -/
@[ext]
structure ConnectionManager where
  active_connections : List Nat
  user_to_ws : List (String × Nat)
  ws_to_user : List (Nat × String)
  main_json_data : MainJson
deriving DecidableEq, Repr

/-- The transport environment for one registry call: which channels are in
the CONNECTED state, and to which channels send_text succeeds. -/
structure World where
  connState : Nat → Bool
  sendOk : Nat → Bool

/-- The fresh manager built by the constructor; t0 stands for the initial
datetime.now() timestamp. -/
def initManager (t0 : Nat) : ConnectionManager :=
  { active_connections := [],
    user_to_ws := [],
    ws_to_user := [],
    main_json_data :=
      { status := "Offline", users_online := 0, last_updated := t0, custom_data := [] } }

/-- The update_user_count method. -/
def update_user_count (m : ConnectionManager) : ConnectionManager :=
  { m with main_json_data :=
      { m.main_json_data with users_online := m.active_connections.length } }

/-- The connect method (the transport-level accept is external). -/
def connect (m : ConnectionManager) (websocket : Nat) : ConnectionManager :=
  update_user_count { m with active_connections := setAdd m.active_connections websocket }

/-- The register_user method; the boolean records whether the pair was
inserted (the method logs success) or skipped (it logs a warning to report
the no-op failure). -/
def register_user (m : ConnectionManager) (user_id : String) (websocket : Nat) :
    ConnectionManager × Bool :=
  if !(dictContains m.user_to_ws user_id) then
    ({ m with user_to_ws := dictSet m.user_to_ws user_id websocket,
              ws_to_user := dictSet m.ws_to_user websocket user_id }, true)
  else
    (m, false)

/-- The disconnect method: discard from the active set, pop the reverse map
and, when the popped id is truthy (a non-empty string), drop the forward map
entry; finally recompute the user count. -/
def disconnect (m : ConnectionManager) (websocket : Nat) : ConnectionManager :=
  let pr := dictPop m.ws_to_user websocket
  let utw :=
    match pr.1 with
    | some uid => if uid = "" then m.user_to_ws else dictRemove m.user_to_ws uid
    | none => m.user_to_ws
  update_user_count
    { m with active_connections := m.active_connections.erase websocket,
             ws_to_user := pr.2, user_to_ws := utw }

/-- The get_online_users method: a copied snapshot of the registered ids. -/
def get_online_users (m : ConnectionManager) : List String :=
  m.user_to_ws.map Prod.fst

/-- The send_personal_message method: the manager after the call, the
returned boolean, and the frames actually written to a channel. -/
def send_personal_message {M : Type} (w : World) (m : ConnectionManager)
    (message : M) (user_id : String) : ConnectionManager × Bool × List (Nat × M) :=
  match dictGet m.user_to_ws user_id with
  | some client =>
    if w.connState client then
      if w.sendOk client then (m, true, [(client, message)])
      else (disconnect m client, false, [])
    else (m, false, [])
  | none => (m, false, [])

/-- One iteration of the broadcast loop: accumulate clients_to_remove and
the successfully written frames. -/
def bstep {M : Type} (w : World) (message : M)
    (acc : List Nat × List (Nat × M)) (client : Nat) : List Nat × List (Nat × M) :=
  if w.connState client then
    if w.sendOk client then (acc.1, acc.2 ++ [(client, message)])
    else (acc.1 ++ [client], acc.2)
  else (acc.1 ++ [client], acc.2)

/-- The broadcast method: first the loop over the member set collecting the
failed or closed channels, then the cleanup pass calling disconnect on each
of them. -/
def broadcast {M : Type} (w : World) (m : ConnectionManager) (message : M) :
    ConnectionManager × List (Nat × M) :=
  let col := m.active_connections.foldl (bstep w message) ([], [])
  (col.1.foldl disconnect m, col.2)

/-- The fields of a parsed inbound JSON frame that the router reads. -/
structure ParsedData where
  type : Option String
  senderId : Option String
  targetId : Option String
deriving DecidableEq, Repr

/-- An inbound text frame: the raw string and its JSON parse, none when
json.loads raises. -/
structure Frame where
  raw : String
  parsed : Option ParsedData
deriving DecidableEq, Repr

/-- The text frames the server writes out, kept symbolic so that forwarding
the raw inbound string stays distinguishable from any re-serialization. -/
inductive WireMsg where
  | text (s : String)
  | dumpsData (d : ParsedData)
  | dumpsObj (ty : String) (users : List String) (senderId : String)
  | dataUpdate (st : MainJson)
deriving DecidableEq, Repr

/-- Python truthiness of an optional string: None and the empty string are
falsy. -/
def truthyS : Option String → Bool
  | none => false
  | some s => !(s == "")

/-- Step A of the endpoint loop body: on a truthy senderId that is not yet a
key of user_to_ws, call register_user and set current_user_id; afterwards,
whenever the senderId is a key of user_to_ws, adopt it as current_user_id. -/
def stepRegister (websocket : Nat) (m : ConnectionManager) (cur : Option String)
    (data : ParsedData) : ConnectionManager × Option String :=
  let mc1 :=
    if truthyS data.senderId && !(dictContains m.user_to_ws (data.senderId.getD "")) then
      ((register_user m (data.senderId.getD "") websocket).1, data.senderId)
    else (m, cur)
  let cur2 :=
    match data.senderId with
    | some s => if dictContains mc1.1.user_to_ws s then some s else mc1.2
    | none => mc1.2
  (mc1.1, cur2)

/-- Step B of the endpoint loop body: dispatch on the type field. -/
def dispatch (w : World) (m1 : ConnectionManager) (cur2 : Option String)
    (raw : String) (data : ParsedData) : ConnectionManager × List (Nat × WireMsg) :=
  if data.type = some "Sync_Boss_Data" ∨ data.type = some "Boss_Death" ∨
      data.type = some "Ack_Sync" then
    broadcast w m1 (WireMsg.dumpsData data)
  else if data.type = some "offer" ∨ data.type = some "answer" ∨
      data.type = some "candidate" ∨ data.type = some "chat_message" then
    if truthyS data.targetId then
      let r := send_personal_message w m1 (WireMsg.text raw) (data.targetId.getD "")
      (r.1, r.2.2)
    else (m1, [])
  else if data.type = some "request_online_users" then
    let target := if truthyS cur2 then cur2 else data.senderId
    if truthyS target then
      let r := send_personal_message w m1
        (WireMsg.dumpsObj "online_users_list" (get_online_users m1) "server")
        (target.getD "")
      (r.1, r.2.2)
    else (m1, [])
  else (m1, [])

/-- One iteration of the endpoint receive loop of fastapi_websocket_endpoint:
JSON parse, the registration step, then the dispatch; returns the manager,
the updated current_user_id and the frames written out. -/
def handle_message (w : World) (websocket : Nat) (m : ConnectionManager)
    (cur : Option String) (f : Frame) :
    ConnectionManager × Option String × List (Nat × WireMsg) :=
  match f.parsed with
  | none => (m, cur, [])
  | some data =>
    let s := stepRegister websocket m cur data
    let r := dispatch w s.1 s.2 f.raw data
    (r.1, s.2, r.2)

/-- Modelled from the spec: the UPDATE_FROM_A state-update branch of the
router is present only in repository revisions that are not among the
sources here; per the spec it replaces the shared custom payload wholesale,
refreshes the timestamp and the online count, and broadcasts a data_update
envelope carrying the whole shared document. -/
def handle_update_from_a (w : World) (now : Nat) (m : ConnectionManager)
    (p : Payload) : ConnectionManager × List (Nat × WireMsg) :=
  let st : MainJson :=
    { status := m.main_json_data.status,
      users_online := m.active_connections.length,
      last_updated := now,
      custom_data := p }
  broadcast w { m with main_json_data := st } (WireMsg.dataUpdate st)

/-- A connect-or-disconnect event, for the online-count invariant. -/
inductive ConnOp where
  | conn (websocket : Nat)
  | disc (websocket : Nat)
deriving DecidableEq, Repr

/-- Apply one connect/disconnect event. -/
def applyConnOp (m : ConnectionManager) : ConnOp → ConnectionManager
  | ConnOp.conn ws => connect m ws
  | ConnOp.disc ws => disconnect m ws

/-- Run a sequence of connect/disconnect events. -/
def runConnOps (m : ConnectionManager) (ops : List ConnOp) : ConnectionManager :=
  ops.foldl applyConnOp m

/-- States reachable from a fresh manager by register_user and disconnect,
with every registration using a non-empty id and a connection that holds no
identity yet. -/
inductive ReachableReg : ConnectionManager → Prop where
  | init (t0 : Nat) : ReachableReg (initManager t0)
  | reg (m : ConnectionManager) (id : String) (ws : Nat) :
      ReachableReg m → id ≠ "" → dictContains m.ws_to_user ws = false →
      ReachableReg (register_user m id ws).1
  | disc (m : ConnectionManager) (ws : Nat) :
      ReachableReg m → ReachableReg (disconnect m ws)

/-- The registry invariant: duplicate-free structures, the two id maps
mutually inverse, and every registered id non-empty. -/
def Inv (m : ConnectionManager) : Prop :=
  m.active_connections.Nodup ∧
  dictWF m.user_to_ws ∧
  dictWF m.ws_to_user ∧
  (∀ p ∈ m.user_to_ws, dictGet m.ws_to_user p.2 = some p.1) ∧
  (∀ q ∈ m.ws_to_user, dictGet m.user_to_ws q.2 = some q.1) ∧
  (∀ p ∈ m.user_to_ws, p.1 ≠ "")

instance {α β : Type} [DecidableEq α] (d : List (α × β)) : Decidable (dictWF d) := by
  unfold dictWF; infer_instance

instance (m : ConnectionManager) : Decidable (Inv m) := by
  unfold Inv; infer_instance

/-- Example transport world for the witnesses: channel 3 is closed and the
send to channel 2 fails. -/
def exW1 : World := { connState := fun c => c != 3, sendOk := fun c => c != 2 }

/-- Example registry state for the witnesses: three active connections, two
of them registered. -/
def exM1 : ConnectionManager :=
  { active_connections := [1, 2, 3],
    user_to_ws := [("a", 1), ("b", 2)],
    ws_to_user := [(1, "a"), (2, "b")],
    main_json_data :=
      { status := "s", users_online := 3, last_updated := 0, custom_data := [] } }

/-- A world in which every channel is open and every send succeeds. -/
def cexW : World := { connState := fun _ => true, sendOk := fun _ => true }

/-- Registry state for the request_online_users scenario: connection 1 is
registered as bob, connection 2 is connected but holds no registration. -/
def cexM : ConnectionManager :=
  { active_connections := [1, 2],
    user_to_ws := [("bob", 1)],
    ws_to_user := [(1, "bob")],
    main_json_data :=
      { status := "Offline", users_online := 2, last_updated := 0, custom_data := [] } }

/-- The parsed fields of the request_online_users frame used below. -/
def cexD : ParsedData :=
  { type := some "request_online_users", senderId := some "bob", targetId := none }

/-- The request_online_users frame sent by connection 2 claiming senderId bob. -/
def cexF : Frame := { raw := "req", parsed := some cexD }

/-- A reachable example state for the bijection witness. -/
def exM2 : ConnectionManager := (register_user (initManager 0) "alice" 1).1

/-- The parsed fields of an offer frame from alice to bob. -/
def exD7 : ParsedData :=
  { type := some "offer", senderId := some "alice", targetId := some "bob" }

/-- An offer frame from alice to bob, for the relay witness. -/
def exF7 : Frame := { raw := "rawOffer", parsed := some exD7 }

/-- A world in which every channel is open but every send fails. -/
def exWfail : World := { connState := fun _ => true, sendOk := fun _ => false }

/-- An unknown-type frame carrying senderId a. -/
def exDa : ParsedData := { type := some "x", senderId := some "a", targetId := none }

/-- The frame wrapping exDa. -/
def exFa : Frame := { raw := "fa", parsed := some exDa }

/-- An unknown-type frame carrying senderId b. -/
def exDb : ParsedData := { type := some "x", senderId := some "b", targetId := none }

/-- The frame wrapping exDb. -/
def exFb : Frame := { raw := "fb", parsed := some exDb }

/-- The endpoint-reachable manager in which the single connection 0 has
registered two senderIds in turn: connect, then one frame with senderId a,
then one with senderId b, all processed by the receive-loop body. -/
def exM3 : ConnectionManager :=
  (handle_message cexW 0
    (handle_message cexW 0 (connect (initManager 0) 0) none exFa).1
    (handle_message cexW 0 (connect (initManager 0) 0) none exFa).2.1 exFb).1

theorem dictGet_eq_some_mem {α β : Type} [DecidableEq α] {d : List (α × β)}
    {k : α} {v : β} (h : dictGet d k = some v) : (k, v) ∈ d := by
  induction d with
  | nil => simp [dictGet] at h
  | cons p rest ih =>
    by_cases hk : p.1 = k
    · rw [dictGet, if_pos hk, Option.some.injEq] at h
      subst h; subst hk
      exact List.mem_cons_self _ _
    · rw [dictGet, if_neg hk] at h
      exact List.mem_cons_of_mem _ (ih h)

theorem dictGet_eq_none_iff {α β : Type} [DecidableEq α] {d : List (α × β)} {k : α} :
    dictGet d k = none ↔ ∀ p ∈ d, p.1 ≠ k := by
  induction d with
  | nil => simp [dictGet]
  | cons p rest ih =>
    by_cases hk : p.1 = k
    · simp [dictGet, hk]
    · simp [dictGet, hk, ih]

theorem dictGet_of_mem_wf {α β : Type} [DecidableEq α] {d : List (α × β)}
    (hwf : dictWF d) {k : α} {v : β} (h : (k, v) ∈ d) : dictGet d k = some v := by
  induction d with
  | nil => simp at h
  | cons p rest ih =>
    rw [dictWF, List.map_cons, List.nodup_cons] at hwf
    rcases List.mem_cons.mp h with h1 | h1
    · rw [dictGet, if_pos (congrArg Prod.fst h1.symm), h1.symm]
    · have hk : p.1 ≠ k := by
        intro e
        exact hwf.1 (e ▸ List.mem_map.mpr ⟨(k, v), h1, rfl⟩)
      rw [dictGet, if_neg hk]
      exact ih hwf.2 h1

theorem dictGet_dictRemove {α β : Type} [DecidableEq α] (d : List (α × β)) (k k' : α) :
    dictGet (dictRemove d k) k' = if k' = k then none else dictGet d k' := by
  induction d with
  | nil => simp [dictRemove, dictGet]
  | cons p rest ih =>
    by_cases hk : p.1 = k
    · rw [dictRemove, if_pos hk, ih]
      by_cases hk' : k' = k
      · rw [if_pos hk', if_pos hk']
      · rw [if_neg hk', if_neg hk', dictGet, if_neg (fun e => hk' (e.symm.trans hk))]
    · rw [dictRemove, if_neg hk]
      by_cases hpk' : p.1 = k'
      · have hk'k : k' ≠ k := fun e => hk (hpk'.trans e)
        rw [dictGet, if_pos hpk', if_neg hk'k, dictGet, if_pos hpk']
      · rw [dictGet, if_neg hpk', ih]
        by_cases hk' : k' = k
        · rw [if_pos hk', if_pos hk']
        · rw [if_neg hk', if_neg hk', dictGet, if_neg hpk']

theorem mem_dictRemove {α β : Type} [DecidableEq α] {d : List (α × β)} {k : α}
    {p : α × β} : p ∈ dictRemove d k ↔ p ∈ d ∧ p.1 ≠ k := by
  induction d with
  | nil => simp [dictRemove]
  | cons q rest ih =>
    by_cases hq : q.1 = k
    · rw [dictRemove, if_pos hq, ih]
      constructor
      · rintro ⟨h1, h2⟩; exact ⟨List.mem_cons_of_mem _ h1, h2⟩
      · rintro ⟨h1, h2⟩
        rcases List.mem_cons.mp h1 with rfl | h1
        · exact absurd hq h2
        · exact ⟨h1, h2⟩
    · rw [dictRemove, if_neg hq]
      constructor
      · intro h1
        rcases List.mem_cons.mp h1 with rfl | h1
        · exact ⟨List.mem_cons_self _ _, hq⟩
        · obtain ⟨h2, h3⟩ := ih.mp h1
          exact ⟨List.mem_cons_of_mem _ h2, h3⟩
      · rintro ⟨h1, h2⟩
        rcases List.mem_cons.mp h1 with rfl | h1
        · exact List.mem_cons_self _ _
        · exact List.mem_cons_of_mem _ (ih.mpr ⟨h1, h2⟩)

theorem dictWF_dictRemove {α β : Type} [DecidableEq α] {d : List (α × β)}
    (h : dictWF d) (k : α) : dictWF (dictRemove d k) := by
  induction d with
  | nil => exact h
  | cons p rest ih =>
    rw [dictWF, List.map_cons, List.nodup_cons] at h
    by_cases hp : p.1 = k
    · rw [dictRemove, if_pos hp]; exact ih h.2
    · rw [dictRemove, if_neg hp, dictWF, List.map_cons, List.nodup_cons]
      refine ⟨fun hmem => ?_, ih h.2⟩
      obtain ⟨q, hq, he⟩ := List.mem_map.mp hmem
      exact h.1 (List.mem_map.mpr ⟨q, (mem_dictRemove.mp hq).1, he⟩)

theorem dictGet_append_some {α β : Type} [DecidableEq α] {d e : List (α × β)}
    {k : α} {v : β} (h : dictGet d k = some v) : dictGet (d ++ e) k = some v := by
  induction d with
  | nil => simp [dictGet] at h
  | cons p rest ih =>
    by_cases hp : p.1 = k
    · rw [dictGet, if_pos hp] at h
      rw [List.cons_append, dictGet, if_pos hp]
      exact h
    · rw [dictGet, if_neg hp] at h
      rw [List.cons_append, dictGet, if_neg hp]
      exact ih h

theorem dictGet_append_none {α β : Type} [DecidableEq α] {d e : List (α × β)}
    {k : α} (h : dictGet d k = none) : dictGet (d ++ e) k = dictGet e k := by
  induction d with
  | nil => simp
  | cons p rest ih =>
    by_cases hp : p.1 = k
    · rw [dictGet, if_pos hp] at h; cases h
    · rw [dictGet, if_neg hp] at h
      rw [List.cons_append, dictGet, if_neg hp]
      exact ih h

theorem dictWF_append_single {α β : Type} [DecidableEq α] {d : List (α × β)}
    {k : α} (v : β) (hwf : dictWF d) (h : dictGet d k = none) :
    dictWF (d ++ [(k, v)]) := by
  rw [dictWF, List.map_append, List.nodup_append]
  refine ⟨hwf, by simp, ?_⟩
  intro a ha hb
  simp at hb
  subst hb
  obtain ⟨q, hq, he⟩ := List.mem_map.mp ha
  exact dictGet_eq_none_iff.mp h q hq he

theorem dictGet_map_replace {α β : Type} [DecidableEq α] {d : List (α × β)}
    {k : α} (v : β) {w : β} (hd : dictGet d k = some w) :
    dictGet (d.map (fun p => if p.1 = k then (k, v) else p)) k = some v := by
  induction d with
  | nil => simp [dictGet] at hd
  | cons p rest ih =>
    by_cases hp : p.1 = k
    · rw [List.map_cons, if_pos hp, dictGet, if_pos rfl]
    · rw [dictGet, if_neg hp] at hd
      rw [List.map_cons, if_neg hp, dictGet, if_neg hp]
      exact ih hd

theorem dictGet_dictSet_self {α β : Type} [DecidableEq α] (d : List (α × β))
    (k : α) (v : β) : dictGet (dictSet d k v) k = some v := by
  cases hd : dictGet d k with
  | none =>
    simp only [dictSet, hd]
    rw [dictGet_append_none hd]
    simp [dictGet]
  | some w =>
    simp only [dictSet, hd]
    exact dictGet_map_replace v hd

theorem dictContains_eq_false_iff {α β : Type} [DecidableEq α] {d : List (α × β)}
    {k : α} : dictContains d k = false ↔ dictGet d k = none := by
  rw [dictContains]
  cases dictGet d k <;> simp

theorem dictContains_eq_true_iff {α β : Type} [DecidableEq α] {d : List (α × β)}
    {k : α} : dictContains d k = true ↔ ∃ v, dictGet d k = some v := by
  rw [dictContains]
  cases dictGet d k <;> simp

theorem disconnect_active (m : ConnectionManager) (ws : Nat) :
    (disconnect m ws).active_connections = m.active_connections.erase ws := rfl

theorem disconnect_status (m : ConnectionManager) (ws : Nat) :
    (disconnect m ws).main_json_data.status = m.main_json_data.status := rfl

theorem disconnect_custom (m : ConnectionManager) (ws : Nat) :
    (disconnect m ws).main_json_data.custom_data = m.main_json_data.custom_data := rfl

theorem disconnect_last (m : ConnectionManager) (ws : Nat) :
    (disconnect m ws).main_json_data.last_updated = m.main_json_data.last_updated := rfl

theorem disconnect_users_online (m : ConnectionManager) (ws : Nat) :
    (disconnect m ws).main_json_data.users_online =
      (m.active_connections.erase ws).length := rfl

theorem disconnect_maps_none {m : ConnectionManager} {ws : Nat}
    (hd : dictGet m.ws_to_user ws = none) :
    (disconnect m ws).ws_to_user = m.ws_to_user ∧
    (disconnect m ws).user_to_ws = m.user_to_ws := by
  constructor <;> simp only [disconnect, dictPop, hd, update_user_count]

theorem disconnect_maps_some {m : ConnectionManager} {ws : Nat} {uid : String}
    (hd : dictGet m.ws_to_user ws = some uid) (hne : uid ≠ "") :
    (disconnect m ws).ws_to_user = dictRemove m.ws_to_user ws ∧
    (disconnect m ws).user_to_ws = dictRemove m.user_to_ws uid := by
  constructor <;> simp only [disconnect, dictPop, hd, update_user_count, if_neg hne]

theorem dictGet_wtu_disconnect_self (m : ConnectionManager) (ws : Nat) :
    dictGet (disconnect m ws).ws_to_user ws = none := by
  show dictGet (dictPop m.ws_to_user ws).2 ws = none
  cases hd : dictGet m.ws_to_user ws with
  | none => simp only [dictPop, hd]
  | some v =>
    simp only [dictPop, hd]
    rw [dictGet_dictRemove]
    simp

theorem wtu_disconnect_cases (m : ConnectionManager) (ws : Nat) :
    (disconnect m ws).ws_to_user = m.ws_to_user ∨
    (disconnect m ws).ws_to_user = dictRemove m.ws_to_user ws := by
  show (dictPop m.ws_to_user ws).2 = _ ∨ (dictPop m.ws_to_user ws).2 = _
  cases hd : dictGet m.ws_to_user ws with
  | none => left; simp only [dictPop, hd]
  | some v => right; simp only [dictPop, hd]

theorem utw_disconnect_cases (m : ConnectionManager) (ws : Nat) :
    (disconnect m ws).user_to_ws = m.user_to_ws ∨
    ∃ uid, (disconnect m ws).user_to_ws = dictRemove m.user_to_ws uid := by
  cases hd : dictGet m.ws_to_user ws with
  | none => left; exact (disconnect_maps_none hd).2
  | some uid =>
    by_cases he : uid = ""
    · left
      show (match (dictPop m.ws_to_user ws).1 with
            | some u => if u = "" then m.user_to_ws else dictRemove m.user_to_ws u
            | none => m.user_to_ws) = m.user_to_ws
      simp only [dictPop, hd, if_pos he]
    · right
      exact ⟨uid, (disconnect_maps_some hd he).2⟩

theorem wtu_none_disconnect {m : ConnectionManager} {c : Nat}
    (h : dictGet m.ws_to_user c = none) (x : Nat) :
    dictGet (disconnect m x).ws_to_user c = none := by
  rcases wtu_disconnect_cases m x with he | he <;> rw [he]
  · exact h
  · rw [dictGet_dictRemove]
    by_cases hc : c = x
    · rw [if_pos hc]
    · rw [if_neg hc]; exact h

theorem utw_noval_disconnect {m : ConnectionManager} {c : Nat}
    (h : ∀ id, dictGet m.user_to_ws id ≠ some c) (x : Nat) :
    ∀ id, dictGet (disconnect m x).user_to_ws id ≠ some c := by
  intro id
  rcases utw_disconnect_cases m x with he | ⟨uid, he⟩ <;> rw [he]
  · exact h id
  · rw [dictGet_dictRemove]
    by_cases hid : id = uid
    · rw [if_pos hid]; simp
    · rw [if_neg hid]; exact h id

theorem mem_active_disconnect_of {m : ConnectionManager} {x c : Nat}
    (h : c ∈ (disconnect m x).active_connections) : c ∈ m.active_connections := by
  rw [disconnect_active] at h
  exact List.mem_of_mem_erase h

theorem not_mem_active_disconnect {m : ConnectionManager} {c : Nat}
    (h : c ∉ m.active_connections) (x : Nat) :
    c ∉ (disconnect m x).active_connections :=
  fun hc => h (mem_active_disconnect_of hc)

theorem mem_active_disconnect_of_ne {m : ConnectionManager} {x c : Nat}
    (hne : c ≠ x) (h : c ∈ m.active_connections) :
    c ∈ (disconnect m x).active_connections := by
  rw [disconnect_active]
  exact (List.mem_erase_of_ne hne).mpr h

theorem Inv_disconnect {m : ConnectionManager} (h : Inv m) (ws : Nat) :
    Inv (disconnect m ws) := by
  obtain ⟨hA, hU, hW, h1, h2, h3⟩ := h
  have hA' : (disconnect m ws).active_connections.Nodup := by
    rw [disconnect_active]; exact hA.erase ws
  cases hd : dictGet m.ws_to_user ws with
  | none =>
    obtain ⟨e1, e2⟩ := disconnect_maps_none hd
    exact ⟨hA', e2 ▸ hU, e1 ▸ hW, by rw [e1, e2]; exact h1, by rw [e1, e2]; exact h2,
      by rw [e2]; exact h3⟩
  | some uid =>
    have huid : uid ≠ "" := by
      have hm := dictGet_eq_some_mem hd
      have hg := h2 _ hm
      exact h3 _ (dictGet_eq_some_mem hg)
    obtain ⟨e1, e2⟩ := disconnect_maps_some hd huid
    refine ⟨hA', ?_, ?_, ?_, ?_, ?_⟩
    · rw [e2]; exact dictWF_dictRemove hU uid
    · rw [e1]; exact dictWF_dictRemove hW ws
    · rw [e1, e2]
      intro p hp
      obtain ⟨hpm, hpne⟩ := mem_dictRemove.mp hp
      rw [dictGet_dictRemove]
      have hws : p.2 ≠ ws := by
        intro e
        have := h1 p hpm
        rw [e, hd] at this
        exact hpne (Option.some.injEq _ _ ▸ this).symm
      rw [if_neg hws]
      exact h1 p hpm
    · rw [e1, e2]
      intro q hq
      obtain ⟨hqm, hqne⟩ := mem_dictRemove.mp hq
      rw [dictGet_dictRemove]
      have huidq : q.2 ≠ uid := by
        intro e
        have hg := h2 q hqm
        have hg2 := h2 _ (dictGet_eq_some_mem hd)
        rw [e] at hg
        rw [hg] at hg2
        exact hqne ((Option.some.injEq _ _).mp hg2)
      rw [if_neg huidq]
      exact h2 q hqm
    · rw [e2]
      intro p hp
      exact h3 p (mem_dictRemove.mp hp).1

theorem register_user_skip {m : ConnectionManager} {id : String} {ws : Nat}
    (hc : dictContains m.user_to_ws id = true) :
    register_user m id ws = (m, false) := by
  simp [register_user, hc]

theorem register_user_insert {m : ConnectionManager} {id : String} {ws : Nat}
    (hc : dictContains m.user_to_ws id = false) :
    (register_user m id ws).1.user_to_ws = m.user_to_ws ++ [(id, ws)] ∧
    (register_user m id ws).1.ws_to_user = dictSet m.ws_to_user ws id ∧
    (register_user m id ws).1.active_connections = m.active_connections ∧
    (register_user m id ws).1.main_json_data = m.main_json_data ∧
    (register_user m id ws).2 = true := by
  have hg : dictGet m.user_to_ws id = none := dictContains_eq_false_iff.mp hc
  refine ⟨?_, ?_, ?_, ?_, ?_⟩ <;> simp [register_user, hc, dictSet, hg]

theorem Inv_register {m : ConnectionManager} (h : Inv m) {id : String} {ws : Nat}
    (hid : id ≠ "") (hws : dictContains m.ws_to_user ws = false) :
    Inv (register_user m id ws).1 := by
  obtain ⟨hA, hU, hW, h1, h2, h3⟩ := h
  by_cases hc : dictContains m.user_to_ws id
  · rw [register_user_skip hc]
    exact ⟨hA, hU, hW, h1, h2, h3⟩
  · rw [Bool.not_eq_true] at hc
    have hgu : dictGet m.user_to_ws id = none := dictContains_eq_false_iff.mp hc
    have hgw : dictGet m.ws_to_user ws = none := dictContains_eq_false_iff.mp hws
    obtain ⟨eU, eW, eA, eM, _⟩ := register_user_insert hc
    have eW' : (register_user m id ws).1.ws_to_user = m.ws_to_user ++ [(ws, id)] := by
      rw [eW]; simp only [dictSet, hgw]
    refine ⟨eA ▸ hA, ?_, ?_, ?_, ?_, ?_⟩
    · rw [eU]; exact dictWF_append_single ws hU hgu
    · rw [eW']; exact dictWF_append_single id hW hgw
    · rw [eU, eW']
      intro p hp
      rcases List.mem_append.mp hp with hp | hp
      · exact dictGet_append_some (h1 p hp)
      · simp at hp
        subst hp
        rw [dictGet_append_none hgw]
        simp [dictGet]
    · rw [eU, eW']
      intro q hq
      rcases List.mem_append.mp hq with hq | hq
      · exact dictGet_append_some (h2 q hq)
      · simp at hq
        subst hq
        rw [dictGet_append_none hgu]
        simp [dictGet]
    · rw [eU]
      intro p hp
      rcases List.mem_append.mp hp with hp | hp
      · exact h3 p hp
      · simp at hp
        subst hp
        exact hid

theorem Inv_init (t0 : Nat) : Inv (initManager t0) := by
  refine ⟨?_, ?_, ?_, ?_, ?_, ?_⟩ <;> simp [initManager, dictWF]

theorem Inv_of_reachable {m : ConnectionManager} (h : ReachableReg m) : Inv m := by
  induction h with
  | init t0 => exact Inv_init t0
  | reg m id ws _ hid hws ih => exact Inv_register ih hid hws
  | disc m ws _ ih => exact Inv_disconnect ih ws

theorem self_not_mem_active_disconnect {m : ConnectionManager}
    (h : m.active_connections.Nodup) (c : Nat) :
    c ∉ (disconnect m c).active_connections := by
  rw [disconnect_active]
  exact h.not_mem_erase

theorem disconnect_removes_self {m : ConnectionManager} (h : Inv m) (c : Nat) :
    c ∉ (disconnect m c).active_connections ∧
    dictGet (disconnect m c).ws_to_user c = none ∧
    ∀ id, dictGet (disconnect m c).user_to_ws id ≠ some c := by
  obtain ⟨hA, hU, hW, h1, h2, h3⟩ := h
  refine ⟨self_not_mem_active_disconnect hA c, dictGet_wtu_disconnect_self m c, ?_⟩
  intro id
  cases hd : dictGet m.ws_to_user c with
  | none =>
    rw [(disconnect_maps_none hd).2]
    intro he
    have hg := h1 _ (dictGet_eq_some_mem he)
    rw [hd] at hg
    cases hg
  | some uid =>
    have huid : uid ≠ "" := h3 _ (dictGet_eq_some_mem (h2 _ (dictGet_eq_some_mem hd)))
    rw [(disconnect_maps_some hd huid).2, dictGet_dictRemove]
    by_cases hid : id = uid
    · rw [if_pos hid]; simp
    · rw [if_neg hid]
      intro he
      have hg := h1 _ (dictGet_eq_some_mem he)
      rw [hd] at hg
      exact hid ((Option.some.injEq _ _).mp hg).symm

theorem foldl_disconnect_preserves_removed {c : Nat} (l : List Nat)
    (m : ConnectionManager) (h1 : c ∉ m.active_connections)
    (h2 : dictGet m.ws_to_user c = none)
    (h3 : ∀ id, dictGet m.user_to_ws id ≠ some c) :
    c ∉ (l.foldl disconnect m).active_connections ∧
    dictGet (l.foldl disconnect m).ws_to_user c = none ∧
    ∀ id, dictGet (l.foldl disconnect m).user_to_ws id ≠ some c := by
  induction l generalizing m with
  | nil => exact ⟨h1, h2, h3⟩
  | cons x rest ih =>
    exact ih (disconnect m x) (not_mem_active_disconnect h1 x)
      (wtu_none_disconnect h2 x) (utw_noval_disconnect h3 x)

theorem Inv_foldl_disconnect {m : ConnectionManager} (h : Inv m) (l : List Nat) :
    Inv (l.foldl disconnect m) := by
  induction l generalizing m with
  | nil => exact h
  | cons x rest ih => exact ih (Inv_disconnect h x)

theorem foldl_disconnect_removed {l : List Nat} {m : ConnectionManager} (h : Inv m)
    {c : Nat} (hc : c ∈ l) :
    c ∉ (l.foldl disconnect m).active_connections ∧
    dictGet (l.foldl disconnect m).ws_to_user c = none ∧
    ∀ id, dictGet (l.foldl disconnect m).user_to_ws id ≠ some c := by
  induction l generalizing m with
  | nil => cases hc
  | cons x rest ih =>
    rcases List.mem_cons.mp hc with rfl | hc'
    · obtain ⟨k1, k2, k3⟩ := disconnect_removes_self h c
      exact foldl_disconnect_preserves_removed rest _ k1 k2 k3
    · exact ih (Inv_disconnect h x) hc'

theorem foldl_disconnect_kept {l : List Nat} {m : ConnectionManager}
    {c : Nat} (hc : c ∉ l) (hm : c ∈ m.active_connections) :
    c ∈ (l.foldl disconnect m).active_connections := by
  induction l generalizing m with
  | nil => exact hm
  | cons x rest ih =>
    have hcx : c ≠ x := fun e => hc (e ▸ List.mem_cons_self x rest)
    have hc' : c ∉ rest := fun h' => hc (List.mem_cons_of_mem _ h')
    exact ih hc' (mem_active_disconnect_of_ne hcx hm)

theorem foldl_disconnect_preserves_removed_wtu {c : Nat} (l : List Nat)
    (m : ConnectionManager) (h1 : c ∉ m.active_connections)
    (h2 : dictGet m.ws_to_user c = none) :
    c ∉ (l.foldl disconnect m).active_connections ∧
    dictGet (l.foldl disconnect m).ws_to_user c = none := by
  induction l generalizing m with
  | nil => exact ⟨h1, h2⟩
  | cons x rest ih =>
    exact ih (disconnect m x) (not_mem_active_disconnect h1 x)
      (wtu_none_disconnect h2 x)

theorem foldl_disconnect_removed_nodup {l : List Nat} {m : ConnectionManager}
    (h : m.active_connections.Nodup) {c : Nat} (hc : c ∈ l) :
    c ∉ (l.foldl disconnect m).active_connections ∧
    dictGet (l.foldl disconnect m).ws_to_user c = none := by
  induction l generalizing m with
  | nil => cases hc
  | cons x rest ih =>
    rcases List.mem_cons.mp hc with rfl | hc'
    · exact foldl_disconnect_preserves_removed_wtu rest _
        (self_not_mem_active_disconnect h c) (dictGet_wtu_disconnect_self m c)
    · exact ih (by rw [disconnect_active]; exact h.erase x) hc'

theorem foldl_disconnect_main (l : List Nat) (m : ConnectionManager) :
    (l.foldl disconnect m).main_json_data.status = m.main_json_data.status ∧
    (l.foldl disconnect m).main_json_data.custom_data = m.main_json_data.custom_data ∧
    (l.foldl disconnect m).main_json_data.last_updated =
      m.main_json_data.last_updated := by
  induction l generalizing m with
  | nil => exact ⟨rfl, rfl, rfl⟩
  | cons x rest ih => exact ih (disconnect m x)

theorem bstep_foldl {M : Type} (w : World) (message : M) (l : List Nat)
    (acc : List Nat × List (Nat × M)) :
    l.foldl (bstep w message) acc =
      (acc.1 ++ l.filter (fun c => !(w.connState c && w.sendOk c)),
       acc.2 ++ (l.filter (fun c => w.connState c && w.sendOk c)).map
         (fun c => (c, message))) := by
  induction l generalizing acc with
  | nil => simp
  | cons c rest ih =>
    rw [List.foldl_cons, ih]
    by_cases h1 : w.connState c
    · by_cases h2 : w.sendOk c
      · simp [bstep, h1, h2, List.filter_cons]
      · simp [bstep, h1, h2, List.filter_cons]
    · simp [bstep, h1, List.filter_cons]

theorem broadcast_log {M : Type} (w : World) (m : ConnectionManager) (message : M) :
    (broadcast w m message).2 =
      (m.active_connections.filter (fun c => w.connState c && w.sendOk c)).map
        (fun c => (c, message)) := by
  simp only [broadcast]
  rw [bstep_foldl]
  simp

theorem broadcast_manager {M : Type} (w : World) (m : ConnectionManager)
    (message : M) :
    (broadcast w m message).1 =
      (m.active_connections.filter (fun c => !(w.connState c && w.sendOk c))).foldl
        disconnect m := by
  simp only [broadcast]
  rw [bstep_foldl]
  simp

theorem setAdd_nodup {l : List Nat} (h : l.Nodup) (x : Nat) : (setAdd l x).Nodup := by
  rw [setAdd]
  split
  · exact h
  · rename_i hx
    rw [List.nodup_append]
    exact ⟨h, List.nodup_singleton x, by simpa using hx⟩

theorem truthyS_some {s : String} (h : s ≠ "") : truthyS (some s) = true := by
  simp [truthyS, h]

theorem truthyS_false_iff {o : Option String} :
    truthyS o = false ↔ o = none ∨ o = some "" := by
  cases o with
  | none => simp [truthyS]
  | some s => simp [truthyS]

theorem send_personal_message_log {M : Type} (w : World) (m : ConnectionManager)
    (message : M) (uid : String) :
    (send_personal_message w m message uid).2.2 = [] ∨
    ∃ c, (send_personal_message w m message uid).2.2 = [(c, message)] := by
  cases hd : dictGet m.user_to_ws uid with
  | none => left; simp [send_personal_message, hd]
  | some c =>
    by_cases h1 : w.connState c
    · by_cases h2 : w.sendOk c
      · right; exact ⟨c, by simp [send_personal_message, hd, h1, h2]⟩
      · left; simp [send_personal_message, hd, h1, h2]
    · left; simp [send_personal_message, hd, h1]

/-- C1 fails as stated on states the endpoint itself can reach: after
connect of connection 0 and two receive-loop iterations in which that one
connection declares senderId a and then senderId b, both forward entries
remain while the reverse map holds only b; a broadcast in which the send to
connection 0 fails then removes 0 from the connection set, but the forward
map still maps a to the dead connection 0, so the failed member is not
removed from both id maps. -/
theorem broadcast_failed_send_keeps_forward_entry :
    exM3.active_connections = [0] ∧
    exM3.user_to_ws = [("a", 0), ("b", 0)] ∧
    exM3.ws_to_user = [(0, "b")] ∧
    exWfail.connState 0 = true ∧
    exWfail.sendOk 0 = false ∧
    (broadcast exWfail exM3 "boom").1.active_connections = [] ∧
    dictGet (broadcast exWfail exM3 "boom").1.user_to_ws "a" = some 0 := by
  decide

/-- C1 amended: a broadcast call writes the message to exactly the open and
sendable members of the pre-call connection set; the failures are collected
during that iteration and the disconnect cleanup runs only after it
completes (two-phase collect-then-cleanup); every member whose channel is
not open or whose send fails is removed from the connection set and from the
reverse map ws_to_user, while removal from the forward map user_to_ws covers
only the single id currently recorded for that connection in ws_to_user, so
it is complete exactly when the two maps are mutually inverse with non-empty
ids (for instance when every connection registered at most one non-empty
id); members that were open and sendable stay. -/
theorem broadcast_two_phase_cleanup {M : Type} (w : World) (m : ConnectionManager)
    (message : M) (h : m.active_connections.Nodup) :
    (broadcast w m message).2 =
      (m.active_connections.filter (fun c => w.connState c && w.sendOk c)).map
        (fun c => (c, message)) ∧
    (broadcast w m message).1 =
      (m.active_connections.filter
        (fun c => !(w.connState c && w.sendOk c))).foldl disconnect m ∧
    (∀ c ∈ m.active_connections, ¬(w.connState c = true ∧ w.sendOk c = true) →
      c ∉ (broadcast w m message).1.active_connections ∧
      dictGet (broadcast w m message).1.ws_to_user c = none) ∧
    (Inv m → ∀ c ∈ m.active_connections,
      ¬(w.connState c = true ∧ w.sendOk c = true) →
      ∀ id, dictGet (broadcast w m message).1.user_to_ws id ≠ some c) ∧
    (∀ c ∈ m.active_connections, w.connState c = true → w.sendOk c = true →
      c ∈ (broadcast w m message).1.active_connections) := by
  refine ⟨broadcast_log w m message, broadcast_manager w m message, ?_, ?_, ?_⟩
  · intro c hc hbad
    rw [broadcast_manager]
    apply foldl_disconnect_removed_nodup h
    rw [List.mem_filter]
    refine ⟨hc, ?_⟩
    cases hcs : w.connState c <;> cases hso : w.sendOk c <;> simp_all
  · intro hInv c hc hbad
    rw [broadcast_manager]
    refine (foldl_disconnect_removed hInv ?_).2.2
    rw [List.mem_filter]
    refine ⟨hc, ?_⟩
    cases hcs : w.connState c <;> cases hso : w.sendOk c <;> simp_all
  · intro c hc h1 h2
    rw [broadcast_manager]
    apply foldl_disconnect_kept ?_ hc
    intro hmem
    rw [List.mem_filter] at hmem
    simp [h1, h2] at hmem

/-- C2 fails as stated: the code lets one connection register two different
ids; after register_user a 0 and register_user b 0 (both of which take the
insert branch), the pair (a, 0) is in the forward map while (0, a) is no
longer in the reverse map, so the two maps are not mutually consistent even
in a state reachable by register_user operations alone. -/
theorem register_twice_same_ws_breaks_bijection :
    ("a", 0) ∈
      (register_user (register_user (initManager 0) "a" 0).1 "b" 0).1.user_to_ws ∧
    (0, "a") ∉
      (register_user (register_user (initManager 0) "a" 0).1 "b" 0).1.ws_to_user := by
  decide

/-- C2 amended: in every state reachable by register_user and disconnect
operations in which each registration uses a non-empty id and a connection
that is not currently a key of the reverse map, the two maps form a
bijection: every pair present in one map is present in the other, each id
maps to at most one connection, and each connection carries at most one id. -/
theorem registry_maps_bijective_of_reachable {m : ConnectionManager}
    (h : ReachableReg m) :
    (∀ p ∈ m.user_to_ws, dictGet m.ws_to_user p.2 = some p.1) ∧
    (∀ q ∈ m.ws_to_user, dictGet m.user_to_ws q.2 = some q.1) ∧
    (∀ p ∈ m.user_to_ws, ∀ p' ∈ m.user_to_ws, p.1 = p'.1 → p = p') ∧
    (∀ p ∈ m.user_to_ws, ∀ p' ∈ m.user_to_ws, p.2 = p'.2 → p = p') := by
  obtain ⟨hA, hU, hW, h1, h2, h3⟩ := Inv_of_reachable h
  refine ⟨h1, h2, ?_, ?_⟩
  · intro p hp p' hp' he
    have e1 : dictGet m.user_to_ws p.1 = some p.2 := dictGet_of_mem_wf hU hp
    have e2 : dictGet m.user_to_ws p'.1 = some p'.2 := dictGet_of_mem_wf hU hp'
    rw [← he, e1] at e2
    exact Prod.ext he ((Option.some.injEq _ _).mp e2)
  · intro p hp p' hp' he
    have g1 := h1 p hp
    have g2 := h1 p' hp'
    rw [he, g2] at g1
    exact Prod.ext ((Option.some.injEq _ _).mp g1).symm he

/-- C3: register_user is first-claim-wins; while an id is mapped to a
connection, a later registration attempt of the same id for any other
connection is a no-op that reports failure and leaves both maps unchanged. -/
theorem register_user_first_claim_wins (m : ConnectionManager) (id : String)
    (c1 c2 : Nat) (h : dictGet m.user_to_ws id = some c1) (_hne : c1 ≠ c2) :
    register_user m id c2 = (m, false) ∧
    dictGet (register_user m id c2).1.user_to_ws id = some c1 ∧
    (register_user m id c2).1.ws_to_user = m.ws_to_user := by
  have hc : dictContains m.user_to_ws id = true := by rw [dictContains, h]; rfl
  rw [register_user_skip hc]
  exact ⟨rfl, h, rfl⟩

/-- C4: send_personal_message returns true exactly when the id is registered
to a connection whose channel is open and whose send succeeds; on the id
missing or the channel not open it changes no registry state and returns
false with no frame written; on a send failure it disconnects that
connection (cascading cleanup) and returns false. -/
theorem send_personal_message_spec {M : Type} (w : World) (m : ConnectionManager)
    (message : M) (user_id : String) :
    ((send_personal_message w m message user_id).2.1 = true ↔
      ∃ c, dictGet m.user_to_ws user_id = some c ∧ w.connState c = true ∧
        w.sendOk c = true) ∧
    (dictGet m.user_to_ws user_id = none →
      send_personal_message w m message user_id = (m, false, [])) ∧
    (∀ c, dictGet m.user_to_ws user_id = some c → w.connState c = false →
      send_personal_message w m message user_id = (m, false, [])) ∧
    (∀ c, dictGet m.user_to_ws user_id = some c → w.connState c = true →
      w.sendOk c = false →
      send_personal_message w m message user_id = (disconnect m c, false, [])) ∧
    (∀ c, dictGet m.user_to_ws user_id = some c → w.connState c = true →
      w.sendOk c = true →
      send_personal_message w m message user_id = (m, true, [(c, message)])) := by
  cases hd : dictGet m.user_to_ws user_id with
  | none =>
    refine ⟨by simp [send_personal_message, hd],
      fun _ => by simp [send_personal_message, hd], ?_, ?_, ?_⟩ <;>
      exact fun c hc => by cases hc
  | some c0 =>
    refine ⟨?_, ?_, ?_, ?_, ?_⟩
    · by_cases h1 : w.connState c0 <;> by_cases h2 : w.sendOk c0 <;>
        simp [send_personal_message, hd, h1, h2]
    · intro hn; cases hn
    · intro c hc hcs
      obtain rfl : c0 = c := (Option.some.injEq _ _).mp hc
      simp [send_personal_message, hd, hcs]
    · intro c hc h1 h2
      obtain rfl : c0 = c := (Option.some.injEq _ _).mp hc
      simp [send_personal_message, hd, h1, h2]
    · intro c hc h1 h2
      obtain rfl : c0 = c := (Option.some.injEq _ _).mp hc
      simp [send_personal_message, hd, h1, h2]

/-- C5: disconnect is idempotent; a second disconnect of the same
connection leaves the whole manager state (connection set, both id maps,
shared document with its online count) exactly as after the first call. -/
theorem disconnect_idempotent (m : ConnectionManager) (c : Nat)
    (h : m.active_connections.Nodup) :
    disconnect (disconnect m c) c = disconnect m c := by
  have hA : (disconnect m c).active_connections.erase c =
      (disconnect m c).active_connections := by
    rw [disconnect_active]
    exact List.erase_of_not_mem h.not_mem_erase
  have hW : dictGet (disconnect m c).ws_to_user c = none :=
    dictGet_wtu_disconnect_self m c
  obtain ⟨e1, e2⟩ := disconnect_maps_none hW
  refine ConnectionManager.ext ?_ e2 e1 ?_
  · rw [disconnect_active (disconnect m c), hA]
  · refine MainJson.ext ?_ ?_ ?_ ?_
    · exact disconnect_status _ _
    · rw [disconnect_users_online, hA, disconnect_users_online, disconnect_active]
    · exact disconnect_last _ _
    · exact disconnect_custom _ _

/-- C6: after every sequence of connect and disconnect operations starting
from the fresh manager, the users_online field of the shared document equals
the number of members of the connection set (which stays duplicate-free). -/
theorem users_online_eq_active_length (t0 : Nat) (ops : List ConnOp) :
    (runConnOps (initManager t0) ops).main_json_data.users_online =
      (runConnOps (initManager t0) ops).active_connections.length ∧
    (runConnOps (initManager t0) ops).active_connections.Nodup := by
  have key : ∀ (ops : List ConnOp) (m : ConnectionManager),
      m.main_json_data.users_online = m.active_connections.length →
      m.active_connections.Nodup →
      (runConnOps m ops).main_json_data.users_online =
        (runConnOps m ops).active_connections.length ∧
      (runConnOps m ops).active_connections.Nodup := by
    intro ops
    induction ops with
    | nil => intro m hu hn; exact ⟨hu, hn⟩
    | cons op rest ih =>
      intro m hu hn
      apply ih
      · cases op <;> rfl
      · cases op with
        | conn ws => exact setAdd_nodup hn ws
        | disc ws => exact hn.erase ws
  exact key ops (initManager t0) rfl List.nodup_nil

theorem handle_message_parsed (w : World) (ws : Nat) (m : ConnectionManager)
    (cur : Option String) (f : Frame) {d : ParsedData} (hp : f.parsed = some d) :
    handle_message w ws m cur f =
      ((dispatch w (stepRegister ws m cur d).1 (stepRegister ws m cur d).2 f.raw d).1,
       (stepRegister ws m cur d).2,
       (dispatch w (stepRegister ws m cur d).1 (stepRegister ws m cur d).2 f.raw d).2) := by
  simp only [handle_message, hp]

theorem dispatch_relay (w : World) (m1 : ConnectionManager) (cur2 : Option String)
    (raw : String) (d : ParsedData)
    (ht : d.type = some "offer" ∨ d.type = some "answer" ∨
      d.type = some "candidate" ∨ d.type = some "chat_message") :
    dispatch w m1 cur2 raw d =
      if truthyS d.targetId then
        ((send_personal_message w m1 (WireMsg.text raw) (d.targetId.getD "")).1,
         (send_personal_message w m1 (WireMsg.text raw) (d.targetId.getD "")).2.2)
      else (m1, []) := by
  have hb : ¬(d.type = some "Sync_Boss_Data" ∨ d.type = some "Boss_Death" ∨
      d.type = some "Ack_Sync") := by
    rcases ht with h | h | h | h <;> rw [h] <;> decide
  unfold dispatch
  rw [if_neg hb, if_pos ht]

theorem dispatch_request (w : World) (m1 : ConnectionManager) (cur2 : Option String)
    (raw : String) (d : ParsedData) (ht : d.type = some "request_online_users") :
    dispatch w m1 cur2 raw d =
      (if truthyS (if truthyS cur2 then cur2 else d.senderId) then
        ((send_personal_message w m1
            (WireMsg.dumpsObj "online_users_list" (get_online_users m1) "server")
            ((if truthyS cur2 then cur2 else d.senderId).getD "")).1,
         (send_personal_message w m1
            (WireMsg.dumpsObj "online_users_list" (get_online_users m1) "server")
            ((if truthyS cur2 then cur2 else d.senderId).getD "")).2.2)
      else (m1, [])) := by
  have hb : ¬(d.type = some "Sync_Boss_Data" ∨ d.type = some "Boss_Death" ∨
      d.type = some "Ack_Sync") := by rw [ht]; decide
  have hr : ¬(d.type = some "offer" ∨ d.type = some "answer" ∨
      d.type = some "candidate" ∨ d.type = some "chat_message") := by rw [ht]; decide
  unfold dispatch
  rw [if_neg hb, if_neg hr, if_pos ht]

theorem stepRegister_of_contains {ws : Nat} {m : ConnectionManager}
    {cur : Option String} {d : ParsedData} {s : String} (hs : d.senderId = some s)
    (hc : dictContains m.user_to_ws s = true) :
    stepRegister ws m cur d = (m, some s) := by
  simp [stepRegister, hs, hc]

theorem stepRegister_of_not_contains {ws : Nat} {m : ConnectionManager}
    {cur : Option String} {d : ParsedData} {s : String} (hs : d.senderId = some s)
    (hne : s ≠ "") (hc : dictContains m.user_to_ws s = false) :
    stepRegister ws m cur d = ((register_user m s ws).1, some s) := by
  have ht := truthyS_some hne
  simp [stepRegister, hs, hc, ht]

theorem stepRegister_cur_some {ws : Nat} {m : ConnectionManager}
    {cur : Option String} {d : ParsedData} {s : String} (hs : d.senderId = some s)
    (hne : s ≠ "") : (stepRegister ws m cur d).2 = some s := by
  by_cases hc : dictContains m.user_to_ws s
  · rw [stepRegister_of_contains hs hc]
  · rw [Bool.not_eq_true] at hc
    rw [stepRegister_of_not_contains hs hne hc]

/-- C7: for every relay-class frame (offer, answer, candidate,
chat_message) carrying a truthy targetId, the router forwards the original
raw inbound frame string, unchanged (not a re-serialization), via
send_personal_message to that target; with targetId absent or empty the
frame is dropped with only a warning (no send, no registry change beyond
the registration step); every frame the call writes out is the raw frame. -/
theorem relay_forwards_original_raw (w : World) (ws : Nat) (m : ConnectionManager)
    (cur : Option String) (f : Frame) (d : ParsedData)
    (hp : f.parsed = some d)
    (ht : d.type = some "offer" ∨ d.type = some "answer" ∨
      d.type = some "candidate" ∨ d.type = some "chat_message") :
    (∀ t, d.targetId = some t → t ≠ "" →
      handle_message w ws m cur f =
        ((send_personal_message w (stepRegister ws m cur d).1
            (WireMsg.text f.raw) t).1,
         (stepRegister ws m cur d).2,
         (send_personal_message w (stepRegister ws m cur d).1
            (WireMsg.text f.raw) t).2.2)) ∧
    ((d.targetId = none ∨ d.targetId = some "") →
      handle_message w ws m cur f =
        ((stepRegister ws m cur d).1, (stepRegister ws m cur d).2, [])) ∧
    (∀ e ∈ (handle_message w ws m cur f).2.2, e.2 = WireMsg.text f.raw) := by
  have hmain := handle_message_parsed w ws m cur f hp
  have hdisp := dispatch_relay w (stepRegister ws m cur d).1
    (stepRegister ws m cur d).2 f.raw d ht
  refine ⟨?_, ?_, ?_⟩
  · intro t hT hTne
    rw [hmain, hdisp, hT]
    rw [truthyS_some hTne]
    simp
  · intro hT
    rw [hmain, hdisp]
    rcases hT with hT | hT <;> rw [hT] <;> simp [truthyS]
  · intro e he
    rw [hmain, hdisp] at he
    by_cases htS : truthyS d.targetId
    · rw [if_pos htS] at he
      simp only at he
      rcases send_personal_message_log w (stepRegister ws m cur d).1
        (WireMsg.text f.raw) (d.targetId.getD "") with hlog | ⟨c, hlog⟩
      · rw [hlog] at he; cases he
      · rw [hlog] at he
        rcases List.mem_singleton.mp he with rfl
        rfl
    · rw [Bool.not_eq_true] at htS
      rw [if_neg (by simp [htS])] at he
      cases he

/-- C8 (modelled from the spec, the UPDATE_FROM_A branch): the handler
replaces the shared custom payload wholesale with the incoming payload (the
previous payload is discarded, not merged), refreshes the last-update
timestamp and the online count, and broadcasts a data_update envelope
carrying the whole refreshed shared document to every connected client that
is open and sendable. -/
theorem update_from_a_replaces_and_broadcasts (w : World) (now : Nat)
    (m : ConnectionManager) (p : Payload) :
    (handle_update_from_a w now m p).1.main_json_data.custom_data = p ∧
    (handle_update_from_a w now m p).1.main_json_data.last_updated = now ∧
    (handle_update_from_a w now m p).2 =
      (m.active_connections.filter (fun c => w.connState c && w.sendOk c)).map
        (fun c => (c, WireMsg.dataUpdate
          { status := m.main_json_data.status,
            users_online := m.active_connections.length,
            last_updated := now,
            custom_data := p })) := by
  have h1 : (handle_update_from_a w now m p).1 =
      ((m.active_connections.filter
        (fun c => !(w.connState c && w.sendOk c))).foldl disconnect
        { m with main_json_data :=
            { status := m.main_json_data.status,
              users_online := m.active_connections.length,
              last_updated := now,
              custom_data := p } }) := by
    simp only [handle_update_from_a]
    exact broadcast_manager w _ _
  refine ⟨?_, ?_, ?_⟩
  · rw [h1]
    exact (foldl_disconnect_main _ _).2.1
  · rw [h1]
    exact (foldl_disconnect_main _ _).2.2
  · simp only [handle_update_from_a]
    exact broadcast_log w _ _

/-- C9 fails as stated: connection 2 has no registered id of its own (the
reverse map has no entry for it), yet its request_online_users frame
claiming the already-registered senderId bob produces a response, delivered
to connection 1 where bob is registered, while the claim requires that no
response be sent to anyone. -/
theorem request_online_users_reply_leak :
    dictGet cexM.ws_to_user 2 = none ∧
    cexF.parsed = some { type := some "request_online_users",
                         senderId := some "bob", targetId := none } ∧
    (handle_message cexW 2 cexM none cexF).2.2 =
      [(1, WireMsg.dumpsObj "online_users_list" ["bob"] "server")] := by
  decide

/-- C9 amended: for a request_online_users frame the router builds the
response object with type online_users_list, the snapshot of registered ids
and senderId server, and unicasts it to the id selected as current_user_id
(the last senderId of this connection found in the registry, possibly an id
registered by a different connection, so the reply may go elsewhere) with
the frame senderId as fallback; when the selected id is not truthy, nothing
is sent and only a log occurs. -/
theorem request_online_users_reply_target (w : World) (ws : Nat)
    (m : ConnectionManager) (cur : Option String) (f : Frame) (d : ParsedData)
    (hp : f.parsed = some d) (ht : d.type = some "request_online_users") :
    (∀ t, (if truthyS (stepRegister ws m cur d).2 then (stepRegister ws m cur d).2
        else d.senderId) = some t → t ≠ "" →
      handle_message w ws m cur f =
        ((send_personal_message w (stepRegister ws m cur d).1
            (WireMsg.dumpsObj "online_users_list"
              (get_online_users (stepRegister ws m cur d).1) "server") t).1,
         (stepRegister ws m cur d).2,
         (send_personal_message w (stepRegister ws m cur d).1
            (WireMsg.dumpsObj "online_users_list"
              (get_online_users (stepRegister ws m cur d).1) "server") t).2.2)) ∧
    (truthyS (if truthyS (stepRegister ws m cur d).2 then (stepRegister ws m cur d).2
        else d.senderId) = false →
      handle_message w ws m cur f =
        ((stepRegister ws m cur d).1, (stepRegister ws m cur d).2, [])) := by
  have hmain := handle_message_parsed w ws m cur f hp
  have hdisp := dispatch_request w (stepRegister ws m cur d).1
    (stepRegister ws m cur d).2 f.raw d ht
  refine ⟨?_, ?_⟩
  · intro t hT hTne
    rw [hmain, hdisp, hT, truthyS_some hTne]
    simp
  · intro hF
    rw [hmain, hdisp, if_neg (by simp [hF])]

/-- C10 (implicit): for every parsed frame carrying a truthy senderId the
router runs the registration step regardless of the frame type: when the id
is not yet registered it is inserted in both maps for this connection, and
whether or not the id was registered by this connection or another one the
handler adopts it as the connection's current_user_id (the id later used to
route request_online_users replies); when the id is already present the
registration step leaves the manager unchanged. -/
theorem router_registers_and_adopts_sender (w : World) (ws : Nat)
    (m : ConnectionManager) (cur : Option String) (f : Frame) (d : ParsedData)
    (s : String) (hp : f.parsed = some d) (hs : d.senderId = some s)
    (hne : s ≠ "") :
    (handle_message w ws m cur f).2.1 = some s ∧
    (dictContains m.user_to_ws s = false →
      dictGet (stepRegister ws m cur d).1.user_to_ws s = some ws ∧
      dictGet (stepRegister ws m cur d).1.ws_to_user ws = some s) ∧
    (dictContains m.user_to_ws s = true → (stepRegister ws m cur d).1 = m) := by
  refine ⟨?_, ?_, ?_⟩
  · rw [handle_message_parsed w ws m cur f hp]
    exact stepRegister_cur_some hs hne
  · intro hc
    rw [stepRegister_of_not_contains hs hne hc]
    obtain ⟨eU, eW, _, _, _⟩ := register_user_insert hc
    constructor
    · rw [eU, dictGet_append_none (dictContains_eq_false_iff.mp hc)]
      simp [dictGet]
    · rw [eW]
      exact dictGet_dictSet_self _ _ _
  · intro hc
    rw [stepRegister_of_contains hs hc]

theorem broadcast_two_phase_cleanup_witness :
    exM1.active_connections.Nodup ∧
    ((broadcast exW1 exM1 "hello").2 =
      (exM1.active_connections.filter
        (fun c => exW1.connState c && exW1.sendOk c)).map (fun c => (c, "hello")) ∧
     (broadcast exW1 exM1 "hello").1 =
      (exM1.active_connections.filter
        (fun c => !(exW1.connState c && exW1.sendOk c))).foldl disconnect exM1 ∧
     (∀ c ∈ exM1.active_connections,
        ¬(exW1.connState c = true ∧ exW1.sendOk c = true) →
        c ∉ (broadcast exW1 exM1 "hello").1.active_connections ∧
        dictGet (broadcast exW1 exM1 "hello").1.ws_to_user c = none) ∧
     (Inv exM1 → ∀ c ∈ exM1.active_connections,
        ¬(exW1.connState c = true ∧ exW1.sendOk c = true) →
        ∀ id, dictGet (broadcast exW1 exM1 "hello").1.user_to_ws id ≠ some c) ∧
     (∀ c ∈ exM1.active_connections, exW1.connState c = true →
        exW1.sendOk c = true →
        c ∈ (broadcast exW1 exM1 "hello").1.active_connections)) :=
  ⟨by decide, broadcast_two_phase_cleanup exW1 exM1 "hello" (by decide)⟩

theorem registry_maps_bijective_of_reachable_witness :
    ReachableReg exM2 ∧
    ((∀ p ∈ exM2.user_to_ws, dictGet exM2.ws_to_user p.2 = some p.1) ∧
     (∀ q ∈ exM2.ws_to_user, dictGet exM2.user_to_ws q.2 = some q.1) ∧
     (∀ p ∈ exM2.user_to_ws, ∀ p' ∈ exM2.user_to_ws, p.1 = p'.1 → p = p') ∧
     (∀ p ∈ exM2.user_to_ws, ∀ p' ∈ exM2.user_to_ws, p.2 = p'.2 → p = p')) :=
  have hr : ReachableReg exM2 :=
    ReachableReg.reg (initManager 0) "alice" 1 (ReachableReg.init 0)
      (by decide) (by decide)
  ⟨hr, registry_maps_bijective_of_reachable hr⟩

theorem register_user_first_claim_wins_witness :
    dictGet exM1.user_to_ws "a" = some 1 ∧ (1 : Nat) ≠ 9 ∧
    (register_user exM1 "a" 9 = (exM1, false) ∧
     dictGet (register_user exM1 "a" 9).1.user_to_ws "a" = some 1 ∧
     (register_user exM1 "a" 9).1.ws_to_user = exM1.ws_to_user) :=
  ⟨by decide, by decide,
    register_user_first_claim_wins exM1 "a" 1 9 (by decide) (by decide)⟩

theorem send_personal_message_spec_witness :
    ((send_personal_message exW1 exM1 "hi" "a").2.1 = true ↔
      ∃ c, dictGet exM1.user_to_ws "a" = some c ∧ exW1.connState c = true ∧
        exW1.sendOk c = true) ∧
    (dictGet exM1.user_to_ws "a" = none →
      send_personal_message exW1 exM1 "hi" "a" = (exM1, false, [])) ∧
    (∀ c, dictGet exM1.user_to_ws "a" = some c → exW1.connState c = false →
      send_personal_message exW1 exM1 "hi" "a" = (exM1, false, [])) ∧
    (∀ c, dictGet exM1.user_to_ws "a" = some c → exW1.connState c = true →
      exW1.sendOk c = false →
      send_personal_message exW1 exM1 "hi" "a" = (disconnect exM1 c, false, [])) ∧
    (∀ c, dictGet exM1.user_to_ws "a" = some c → exW1.connState c = true →
      exW1.sendOk c = true →
      send_personal_message exW1 exM1 "hi" "a" = (exM1, true, [(c, "hi")])) :=
  send_personal_message_spec exW1 exM1 "hi" "a"

theorem disconnect_idempotent_witness :
    exM1.active_connections.Nodup ∧
    disconnect (disconnect exM1 2) 2 = disconnect exM1 2 :=
  ⟨by decide, disconnect_idempotent exM1 2 (by decide)⟩

theorem relay_forwards_original_raw_witness :
    exF7.parsed = some exD7 ∧
    (exD7.type = some "offer" ∨ exD7.type = some "answer" ∨
      exD7.type = some "candidate" ∨ exD7.type = some "chat_message") ∧
    ((∀ t, exD7.targetId = some t → t ≠ "" →
      handle_message cexW 2 cexM none exF7 =
        ((send_personal_message cexW (stepRegister 2 cexM none exD7).1
            (WireMsg.text exF7.raw) t).1,
         (stepRegister 2 cexM none exD7).2,
         (send_personal_message cexW (stepRegister 2 cexM none exD7).1
            (WireMsg.text exF7.raw) t).2.2)) ∧
     ((exD7.targetId = none ∨ exD7.targetId = some "") →
      handle_message cexW 2 cexM none exF7 =
        ((stepRegister 2 cexM none exD7).1, (stepRegister 2 cexM none exD7).2, [])) ∧
     (∀ e ∈ (handle_message cexW 2 cexM none exF7).2.2,
        e.2 = WireMsg.text exF7.raw)) :=
  ⟨rfl, by decide,
    relay_forwards_original_raw cexW 2 cexM none exF7 exD7 rfl (by decide)⟩

theorem request_online_users_reply_target_witness :
    cexF.parsed = some cexD ∧ cexD.type = some "request_online_users" ∧
    ((∀ t, (if truthyS (stepRegister 2 cexM none cexD).2
          then (stepRegister 2 cexM none cexD).2 else cexD.senderId) = some t →
        t ≠ "" →
      handle_message cexW 2 cexM none cexF =
        ((send_personal_message cexW (stepRegister 2 cexM none cexD).1
            (WireMsg.dumpsObj "online_users_list"
              (get_online_users (stepRegister 2 cexM none cexD).1) "server") t).1,
         (stepRegister 2 cexM none cexD).2,
         (send_personal_message cexW (stepRegister 2 cexM none cexD).1
            (WireMsg.dumpsObj "online_users_list"
              (get_online_users (stepRegister 2 cexM none cexD).1) "server") t).2.2)) ∧
     (truthyS (if truthyS (stepRegister 2 cexM none cexD).2
          then (stepRegister 2 cexM none cexD).2 else cexD.senderId) = false →
      handle_message cexW 2 cexM none cexF =
        ((stepRegister 2 cexM none cexD).1, (stepRegister 2 cexM none cexD).2, []))) :=
  ⟨rfl, rfl,
    request_online_users_reply_target cexW 2 cexM none cexF cexD rfl rfl⟩

theorem router_registers_and_adopts_sender_witness :
    exF7.parsed = some exD7 ∧ exD7.senderId = some "alice" ∧ "alice" ≠ "" ∧
    ((handle_message cexW 2 cexM none exF7).2.1 = some "alice" ∧
     (dictContains cexM.user_to_ws "alice" = false →
        dictGet (stepRegister 2 cexM none exD7).1.user_to_ws "alice" = some 2 ∧
        dictGet (stepRegister 2 cexM none exD7).1.ws_to_user 2 = some "alice") ∧
     (dictContains cexM.user_to_ws "alice" = true →
        (stepRegister 2 cexM none exD7).1 = cexM)) :=
  ⟨rfl, rfl, by decide,
    router_registers_and_adopts_sender cexW 2 cexM none exF7 exD7 "alice" rfl rfl
      (by decide)⟩

end BossWs
